import Mathlib

/-!
Verification of the stream-accounting, authentication and catalog-pagination
logic of a single-file media API gateway.  Wall-clock timestamps and byte
ratios are modelled as exact rationals.  The module-level mutable
dictionaries of the source are modelled as explicit state records threaded
through the functions; dictionaries keyed by strings are modelled either as
total functions into Option or as association lists with dict semantics,
depending on whether the claims need to enumerate entries.
-/

namespace StashProxy

/-- Source constant: 30 minutes, always count as new stream after this gap. -/
def STREAM_COUNT_COOLDOWN : ℚ := 1800

/-- Source constant: 5 minutes, minimum gap for a seek-to-start to count. -/
def STREAM_START_GAP : ℚ := 300

/-- Source constant: 5 percent, seeking into the first 5 percent of the file
counts as the start.  The source stores the float 0.05; it is modelled by the
exact rational 1/20. -/
def STREAM_START_THRESHOLD : ℚ := 1/20

/-- Source constant: 30 minutes of buffer on top of the video duration. -/
def PLAY_COOLDOWN_BUFFER : ℚ := 1800

/-- Source constant: 90 seconds of inactivity before a request counts as a
resume. -/
def STREAM_RESUME_THRESHOLD : ℚ := 90

/-- Source constant: 5 seconds of grace after a stop notification. -/
def RECENTLY_STOPPED_GRACE : ℚ := 5

/-- Source constant: failed attempts before an IP ban. -/
def BAN_THRESHOLD : ℕ := 10

/-- Source constant: rolling window, in minutes, for counting auth failures. -/
def BAN_WINDOW_MINUTES : ℕ := 15

/-! ## Play-position tracking (the dictionary named stream positions) -/

/-- One entry of the play-position table: last observed byte offset, last
observed timestamp, last observed file size. -/
structure PosInfo where
  last_position : ℕ
  last_time : ℚ
  file_size : ℕ
  deriving DecidableEq, Repr

/-- A position-table key: scene id paired with client IP. -/
abbrev PosKey := String × String

/-- The play-position table, a dictionary keyed by scene id and client IP. -/
abbrev PosTable := PosKey → Option PosInfo

/-- Dictionary assignment on a position table. -/
def posSet (tbl : PosTable) (k : PosKey) (v : PosInfo) : PosTable :=
  fun q => if q = k then some v else tbl q

/-- Embedding of the source function should_count_as_new_stream.  Decides
whether a stream-segment request counts as a new stream and whether it is a
trailing request left over from before a process restart, and overwrites the
position-table entry for the key.  Returns the pair of decisions together
with the updated table. -/
def should_count_as_new_stream (tbl : PosTable) (scene_id client_ip : String)
    (byte_position file_size : ℕ) (now : ℚ) : (Bool × Bool) × PosTable :=
  let position_key : PosKey := (scene_id, client_ip)
  match tbl position_key with
  | none =>
      let tbl' := posSet tbl position_key
        ⟨byte_position, now, file_size⟩
      if 0 < file_size then
        if (byte_position : ℚ) / (file_size : ℚ) > STREAM_START_THRESHOLD then
          ((false, true), tbl')
        else
          ((true, false), tbl')
      else if 0 < byte_position then
        ((false, true), tbl')
      else
        ((true, false), tbl')
  | some last_info =>
      let elapsed := now - last_info.last_time
      let stored_size := if file_size = 0 then last_info.file_size else file_size
      let tbl' := posSet tbl position_key ⟨byte_position, now, stored_size⟩
      if elapsed ≥ STREAM_COUNT_COOLDOWN then
        ((true, false), tbl')
      else
        let effective_file_size := if file_size = 0 then last_info.file_size else file_size
        if 0 < effective_file_size ∧
            (byte_position : ℚ) / (effective_file_size : ℚ) ≤ STREAM_START_THRESHOLD ∧
            elapsed ≥ STREAM_START_GAP then
          ((true, false), tbl')
        else
          ((false, false), tbl')

/-! ## Play-count recording with duration-based cooldown -/

/-- One entry of the play-cooldown dictionary: timestamp of the last counted
play and the cooldown stored with it. -/
structure CooldownInfo where
  timestamp : ℚ
  cooldown_seconds : ℚ
  deriving DecidableEq, Repr

/-- One entry of the per-scene play-count statistics. -/
structure PlayCountInfo where
  count : ℕ
  title : String
  performer : String
  last_played : ℚ
  deriving DecidableEq, Repr

/-- The mutable state touched by record_play_count: the cooldown dictionary
and the play-count statistics dictionary. -/
structure PlayStats where
  play_cooldowns : PosKey → Option CooldownInfo
  play_counts : String → Option PlayCountInfo

/-- Embedding of the source function record_play_count.  The duration is
clamped to be nonnegative just as the source does with max(0, duration or 0);
a play is counted unless the key is still inside the cooldown stored with its
last counted play. -/
def record_play_count (st : PlayStats) (scene_id title performer client_ip : String)
    (duration : ℚ) (now : ℚ) : PlayStats :=
  let safe_duration := max 0 duration
  let cooldown_key : PosKey := (scene_id, client_ip)
  let cooldown_seconds := safe_duration + PLAY_COOLDOWN_BUFFER
  let should_count_play :=
    match st.play_cooldowns cooldown_key with
    | none => true
    | some last_play => ! decide (now - last_play.timestamp < last_play.cooldown_seconds)
  if should_count_play then
    let base :=
      match st.play_counts scene_id with
      | none => (⟨0, title, performer, 0⟩ : PlayCountInfo)
      | some info => info
    { play_cooldowns := fun q =>
        if q = cooldown_key then some ⟨now, cooldown_seconds⟩ else st.play_cooldowns q,
      play_counts := fun s =>
        if s = scene_id then
          some ⟨base.count + 1, title, performer, now⟩
        else st.play_counts s }
  else
    st

/-! ## Auth-failure accounting and IP bans -/

/-- The ban bookkeeping state: the persisted set of banned IPs and the
in-memory per-IP lists of recent failures, each failure a timestamp paired
with the request path. -/
structure BanState where
  banned : List String
  failures : String → Option (List (ℚ × String))

/-- Embedding of the source function record_auth_failure.  Entries older than
the rolling window are pruned first; a failure less than one second after the
last kept failure is not recorded; reaching the threshold bans the IP and
clears its failure list. -/
def record_auth_failure (st : BanState) (client_ip path : String) (now : ℚ) : BanState :=
  let window_seconds : ℚ := (BAN_WINDOW_MINUTES : ℚ) * 60
  let pruned := ((st.failures client_ip).getD []).filter
    (fun e => now - e.1 < window_seconds)
  let rate_limited :=
    match pruned.getLast? with
    | some e => decide (now - e.1 < 1)
    | none => false
  if rate_limited then
    { banned := st.banned,
      failures := fun q => if q = client_ip then some pruned else st.failures q }
  else
    let appended := pruned ++ [(now, path)]
    if BAN_THRESHOLD ≤ appended.length then
      { banned := List.insert client_ip st.banned,
        failures := fun q => if q = client_ip then none else st.failures q }
    else
      { banned := st.banned,
        failures := fun q => if q = client_ip then some appended else st.failures q }

/-! ## JSON-shaped values

The saved-filter criteria trees and the translated query arguments are
arbitrary JSON-shaped Python values.  Numeric literals in the claims are all
integers, so numbers are modelled by Int; Python dicts are modelled by
association lists in insertion order with unique keys. -/

inductive JVal where
  | null : JVal
  | b : Bool → JVal
  | i : Int → JVal
  | s : String → JVal
  | arr : List JVal → JVal
  | obj : List (String × JVal) → JVal

/-- Python truthiness of a JSON-shaped value. -/
def jTruthy : JVal → Bool
  | .null => false
  | .b bv => bv
  | .i n => n != 0
  | .s sv => !sv.isEmpty
  | .arr l => !l.isEmpty
  | .obj l => !l.isEmpty

/-- Python dict.get on the field list of an object: the value stored under a
key, or none when the key is absent. -/
def jGet (fields : List (String × JVal)) (k : String) : Option JVal :=
  fields.lookup k

/-- Python dict.get collapsing an explicit null to none; this models the many
places where the source treats a stored None and a missing key alike. -/
def jGetOpt (fields : List (String × JVal)) (k : String) : Option JVal :=
  match fields.lookup k with
  | some .null => none
  | x => x

/-- Field projection on an object value. -/
def jField (v : JVal) (k : String) : Option JVal :=
  match v with
  | .obj fields => fields.lookup k
  | _ => none

/-- Python int() applied to a string: optional sign followed by digits, with
surrounding whitespace stripped; none when the conversion raises. -/
def pystrToInt (sv : String) : Option Int :=
  let chars := sv.trim.toList
  let (neg, digits) :=
    match chars with
    | '-' :: rest => (true, rest)
    | '+' :: rest => (false, rest)
    | rest => (false, rest)
  if digits.isEmpty ∨ ¬ digits.all Char.isDigit then none
  else
    let n : ℕ := digits.foldl (fun acc c => acc * 10 + (c.toNat - 48)) 0
    some (if neg then -(n : Int) else (n : Int))

/-- Python int(val) as used in the translator: ints stay, bools stay because
bool is a subtype of int, strings are parsed, anything else raises (none). -/
def pyCoerceInt : JVal → Option JVal
  | .i n => some (.i n)
  | .b bv => some (.b bv)
  | .s sv => (pystrToInt sv).map .i
  | _ => none

/-- Source constant: fields passed as bare booleans rather than wrapped in a
modifier structure. -/
def BOOLEAN_FIELDS : List String :=
  ["organized", "interactive", "performer_favorite", "has_markers",
   "ignore_auto_tag", "favorite", "is_missing"]

/-- Source constant: fields using the integer criterion input shape. -/
def INT_CRITERION_FIELDS : List String :=
  ["rating100", "o_counter", "play_count", "file_count",
   "width", "height", "framerate", "bitrate", "duration",
   "resume_time", "tag_count", "performer_count", "scene_count",
   "gallery_count", "marker_count", "image_count"]

/-- Source constant: fields using date comparison. -/
def DATE_FIELDS : List String :=
  ["date", "created_at", "updated_at", "last_played_at", "birthdate", "death_date"]

/-- Source constant: fields using the hierarchical multi-criterion shape. -/
def HIERARCHICAL_FIELDS : List String :=
  ["tags", "performers", "studios", "movies", "groups", "performer_tags"]

/-- Source constant: fields using the plain multi-criterion shape. -/
def MULTI_CRITERION_FIELDS : List String :=
  ["galleries", "scenes", "parents", "children"]

/-- The translator unwraps a nested single-entry dict holding only a value
slot, as in the source check on a dict with value in it and length one. -/
def unwrapSingleValue (v : JVal) : JVal :=
  match v with
  | .obj [("value", x)] => x
  | _ => v

/-- ASCII case folding: the numeric code of a character with upper-case
letters folded to lower case.  All case-insensitive comparisons of the source
go through Python lower() against lower-case literals, over ASCII header
names, route paths and the textual booleans, so folded comparison is exact. -/
def foldCase (c : Char) : ℕ :=
  if 65 ≤ c.toNat ∧ c.toNat ≤ 90 then c.toNat + 32 else c.toNat

/-- Case-insensitive string equality through ASCII folding; equals a
lower-case comparison whenever the right side is already lower case. -/
def eqCI (a b : String) : Bool :=
  a.toList.map foldCase == b.toList.map foldCase

/-- Case-insensitive begins-with through ASCII folding. -/
def startsWithCI (a p : String) : Bool :=
  (p.toList.map foldCase).isPrefixOf (a.toList.map foldCase)

/-- The translator turns the textual strings true and false, in any casing,
into real booleans. -/
def pyBoolString (v : JVal) : JVal :=
  match v with
  | .s sv =>
      if eqCI sv "true" then .b true
      else if eqCI sv "false" then .b false
      else .s sv
  | _ => v

/-- Python isinstance check for bool. -/
def isJBool : JVal → Bool
  | .b _ => true
  | _ => false

/-- Python isinstance check for dict. -/
def isJObj : JVal → Bool
  | .obj _ => true
  | _ => false

/-- Python isinstance check for list. -/
def isJArr : JVal → Bool
  | .arr _ => true
  | _ => false

/-- Python isinstance check for None, used before any other branch of the
translator loop body. -/
def isJNull : JVal → Bool
  | .null => true
  | _ => false

/-- Whether a value is a dict carrying an items key, the shape test of the
hierarchical branch. -/
def hasItemsObj (v : JVal) : Bool :=
  match v with
  | .obj hf => (jGet hf "items").isSome
  | _ => false

/-- The id of one element of an item or exclusion list: dict elements give up
their id slot (absent id becomes null), other elements pass through. -/
def jIdOf (e : JVal) : JVal :=
  match e with
  | .obj efs => (jGet efs "id").getD .null
  | _ => e

/-- The non-recursive branches of the criterion ladder, reached exactly when
the modifier slot holds a truthy value: the branch conditions of the source
that precede the recursion all require the modifier to equal a non-empty
string, so the ladder below is entered if and only if the modifier is
truthy. -/
def transformCriterionLeaf (key : String) (fields : List (String × JVal)) :
    List (String × JVal) :=
  let modOpt := jGetOpt fields "modifier"
  let valOpt := jGetOpt fields "value"
  let val2Opt := jGetOpt fields "value2"
  let modIs := fun (ms : String) =>
    match modOpt with
    | some (.s m) => m == ms
    | _ => false
  let modRaw := modOpt.getD .null
  if key == "is_missing" && modIs "EQUALS" then
    [(key, valOpt.getD .null)]
  else if modIs "IS_NULL" || modIs "NOT_NULL" then
    [(key, JVal.obj [("value", .s ""), ("modifier", modRaw)])]
  else if modIs "BETWEEN" && valOpt.isSome && val2Opt.isSome then
    let v := valOpt.getD .null
    let v2 := val2Opt.getD .null
    if DATE_FIELDS.contains key then
      [(key, JVal.obj [("value", v), ("value2", v2), ("modifier", modRaw)])]
    else if INT_CRITERION_FIELDS.contains key then
      match pyCoerceInt v, pyCoerceInt v2 with
      | some cv, some cv2 =>
          [(key, JVal.obj [("value", cv), ("value2", cv2), ("modifier", modRaw)])]
      | _, _ =>
          [(key, JVal.obj [("value", v), ("value2", v2), ("modifier", modRaw)])]
    else
      [(key, JVal.obj [("value", v), ("value2", v2), ("modifier", modRaw)])]
  else if (modIs "GREATER_THAN" || modIs "LESS_THAN" || modIs "EQUALS" ||
      modIs "NOT_EQUALS") && valOpt.isSome then
    let v1 := pyBoolString (unwrapSingleValue (valOpt.getD .null))
    if BOOLEAN_FIELDS.contains key && isJBool v1 && modIs "EQUALS" then
      [(key, v1)]
    else
      let v2 :=
        if INT_CRITERION_FIELDS.contains key && ! isJBool v1 then
          match v1 with
          | .s sv => ((pystrToInt sv).map JVal.i).getD (.s sv)
          | other => other
        else v1
      [(key, JVal.obj [("value", v2), ("modifier", modRaw)])]
  else if valOpt.isSome then
    let v1 := pyBoolString (unwrapSingleValue (valOpt.getD .null))
    if BOOLEAN_FIELDS.contains key && isJBool v1 && modIs "EQUALS" then
      [(key, v1)]
    else if HIERARCHICAL_FIELDS.contains key && hasItemsObj v1 then
      let hf := match v1 with
        | .obj hf => hf
        | _ => []
      -- a non-list items value or a non-dict item raises in the source
      -- (unreachable for well-formed saved filters); modelled as skipped
      let items := match jGet hf "items" with
        | some (.arr l) => l
        | _ => []
      let ids := items.filterMap (fun it =>
        match it with
        | .obj ifs =>
            match jGet ifs "id" with
            | some idv => if jTruthy idv then some idv else none
            | none => none
        | _ => none)
      let depth := (jGet hf "depth").getD (.i 0)
      let excludes := match (jGet hf "excluded").getD (.arr []) with
        | .arr l => JVal.arr (l.map jIdOf)
        | x => x
      [(key, JVal.obj [("value", .arr ids), ("modifier", modRaw),
                       ("depth", depth), ("excludes", excludes)])]
    else if MULTI_CRITERION_FIELDS.contains key && isJArr v1 then
      let l := match v1 with
        | .arr l => l
        | _ => []
      [(key, JVal.obj [("value", .arr (l.map jIdOf)), ("modifier", modRaw)])]
    else if key == "resolution" then
      [(key, JVal.obj [("value", v1), ("modifier", modRaw)])]
    else if key == "orientation" || key == "aspect_ratio" then
      [(key, JVal.obj [("value", v1), ("modifier", modRaw)])]
    else if key == "stash_id" && isJObj v1 then
      [(key, v1)]
    else if key == "phash_distance" && isJObj v1 then
      [(key, v1)]
    else
      [(key, JVal.obj [("value", v1), ("modifier", modRaw)])]
  else
    let extra := fields.filter (fun p => p.1 != "modifier" && p.1 != "value")
    [(key, JVal.obj ([("modifier", modRaw), ("value", .s "")] ++ extra))]

mutual

/-- Embedding of the source function transform_saved_filter_to_graphql: a
saved-filter criteria tree becomes the argument object of the backend query.
Python returns an empty dict for a falsy or non-dict input, which coincides
with translating an empty field list. -/
def transform_saved_filter_to_graphql : JVal → List (String × JVal)
  | .obj fields => transformFields fields
  | _ => []
termination_by v => 2 * sizeOf v
decreasing_by all_goals (simp_wf <;> omega)

/-- The translator loop over the entries of the criteria dict, in insertion
order. -/
def transformFields : List (String × JVal) → List (String × JVal)
  | [] => []
  | (key, value) :: rest => transformEntry key value ++ transformFields rest
termination_by l => 2 * sizeOf l
decreasing_by all_goals (simp_wf <;> omega)

/-- Recursive translation of the members of a boolean-combinator list,
dropping members whose translation is empty. -/
def transformGroupList : List JVal → List JVal
  | [] => []
  | v :: rest =>
      let t := transform_saved_filter_to_graphql v
      (if t.isEmpty then [] else [JVal.obj t]) ++ transformGroupList rest
termination_by l => 2 * sizeOf l
decreasing_by all_goals (simp_wf <;> omega)

/-- Translation of one key/value entry of the criteria dict: the branch
ladder of the source loop body. -/
def transformEntry (key : String) (value : JVal) : List (String × JVal) :=
  if isJNull value then []
  else if key == "AND" || key == "OR" || key == "NOT" then
    match value with
    | .arr l =>
        let t := transformGroupList l
        if t.isEmpty then [] else [(key, JVal.arr t)]
    | .obj gfields =>
        let t := transform_saved_filter_to_graphql (JVal.obj gfields)
        if t.isEmpty then [] else [(key, JVal.obj t)]
    | _ => []
  else
    match value with
    | .s sv => [(key, JVal.s sv)]
    | .b bv => [(key, JVal.b bv)]
    | .i n => [(key, JVal.i n)]
    | .arr l => [(key, JVal.arr l)]
    | .obj fields => transformCriterion key fields
    | .null => []
termination_by 2 * sizeOf value + 2
decreasing_by all_goals (simp_wf <;> omega)

/-- Translation of a criterion whose value is a dict with a modifier/value
structure: with a falsy modifier the source recurses into the dict, otherwise
it runs the non-recursive ladder of transformCriterionLeaf. -/
def transformCriterion (key : String) (fields : List (String × JVal)) :
    List (String × JVal) :=
  let modOpt := jGetOpt fields "modifier"
  let modTruthy := match modOpt with
    | some m => jTruthy m
    | none => false
  if ! modTruthy then
    let t := transform_saved_filter_to_graphql (JVal.obj fields)
    if t.isEmpty then [] else [(key, JVal.obj t)]
  else transformCriterionLeaf key fields
termination_by 2 * sizeOf fields + 3
decreasing_by all_goals (simp_wf <;> omega)

end

/-! ## Sort-only saved-filter detection -/

mutual

/-- Embedding of the inner recursive helper has_meaningful_filter of the
source: whether a criteria tree holds any non-empty filter value.  Booleans
and numbers always count; strings count when non-empty; lists when non-empty
with a meaningful member; dict entries under the pagination and sort keys are
skipped. -/
def has_meaningful_filter : JVal → Bool
  | .null => false
  | .obj fs => anyMeaningfulField fs
  | .arr l => !l.isEmpty && anyMeaningfulElem l
  | .s sv => !sv.isEmpty
  | .b _ => true
  | .i _ => true
termination_by v => 2 * sizeOf v
decreasing_by all_goals (simp_wf <;> omega)

/-- The dict case of has_meaningful_filter, skipping pagination keys. -/
def anyMeaningfulField : List (String × JVal) → Bool
  | [] => false
  | (k, v) :: rest =>
      (if k == "page" || k == "per_page" || k == "sort" || k == "direction"
       then false else has_meaningful_filter v) || anyMeaningfulField rest
termination_by l => 2 * sizeOf l
decreasing_by all_goals (simp_wf <;> omega)

/-- The list case of has_meaningful_filter. -/
def anyMeaningfulElem : List JVal → Bool
  | [] => false
  | v :: rest => has_meaningful_filter v || anyMeaningfulElem rest
termination_by l => 2 * sizeOf l
decreasing_by all_goals (simp_wf <;> omega)

end

/-- Embedding of the source function is_sort_only_filter, taking the saved
filter by its object_filter tree and its find_filter dict (null when the
corresponding key is absent).  The JSON decoding the source applies when
object_filter arrives as a string happens before the logic modelled here;
every claim supplies a structured tree.  A falsy tree is sort-only unless the
find_filter carries a truthy free-text query; a truthy tree is sort-only
exactly when it holds no meaningful filter value. -/
def is_sort_only_filter (object_filter find_filter : JVal) : Bool :=
  if ! jTruthy object_filter then
    let ff := if jTruthy find_filter then find_filter else .obj []
    match jField ff "q" with
    | some q => ! jTruthy q
    | none => true
  else
    ! has_meaningful_filter object_filter

/-! ## Authentication middleware -/

/-- Source constant PUBLIC_ENDPOINTS: endpoints that require no token. -/
def PUBLIC_ENDPOINTS : List String :=
  ["/", "/favicon.ico", "/system/info/public", "/system/info",
   "/system/ping", "/users", "/users/authenticatebyname",
   "/branding/configuration"]

/-- Source constant PUBLIC_PREFIXES: path beginnings that require no token. -/
def PUBLIC_PREFIXES : List String :=
  ["/system/info"]

/-- Python dict construction over the ASGI header list: keys lowercased,
later occurrences of a key overwrite earlier ones. -/
def headerDict (headers : List (String × String)) : String → Option String :=
  headers.foldl
    (fun m kv => fun q => if eqCI kv.1 q then some kv.2 else m q)
    (fun _ => none)

/-- Embedding of get_client_ip: the first entry of a comma-separated
x-forwarded-for header wins, then x-real-ip, then the transport-level peer
address, then the literal unknown. -/
def get_client_ip (headers : List (String × String))
    (client : Option (String × ℕ)) : String :=
  let hd := headerDict headers
  let xff := (hd "x-forwarded-for").getD ""
  if ! xff.isEmpty then
    (((xff.splitOn ",").headD "").trim)
  else
    let xri := (hd "x-real-ip").getD ""
    if ! xri.isEmpty then xri.trim
    else
      match client with
      | some c => c.1
      | none => "unknown"

/-- The pattern the quoted-token regular expression searches for. -/
def tokenNeedle : List Char := "Token=\"".toList

/-- The bare containment check of the authorization branch, six characters
without the quote. -/
def tokenEqNeedle : List Char := "Token=".toList

/-- Python substring containment over character lists. -/
def containsSeq (needle : List Char) : List Char → Bool
  | [] => needle.isEmpty
  | c :: rest => needle.isPrefixOf (c :: rest) || containsSeq needle rest

/-- One attempt of the quoted-token regular expression at the current
position: the literal Token= and a quote, then one or more non-quote
characters, then a closing quote. -/
def quotedTokenHere (l : List Char) : Option String :=
  if tokenNeedle.isPrefixOf l then
    let rest := l.drop tokenNeedle.length
    let body := rest.takeWhile (fun c => c ≠ '\"')
    if body.isEmpty then none
    else if body.length < rest.length then some (String.mk body)
    else none
  else none

/-- The regular-expression search for a quoted token: the first position at
which the whole pattern matches wins. -/
def findQuotedToken : List Char → Option String
  | [] => none
  | c :: rest =>
      match quotedTokenHere (c :: rest) with
      | some sv => some sv
      | none => findQuotedToken rest

/-- Whether a request header terminates the token-extraction loop, and if so
with which token.  The outer option is the loop break, the inner option the
extracted token: the authorization branch can break having extracted
nothing. -/
def tokenOfHeader (name value : String) : Option (Option String) :=
  if eqCI name "x-emby-token" then some (some value)
  else if eqCI name "x-mediabrowser-token" then some (some value)
  else if eqCI name "authorization" then
    some (if "Bearer ".toList.isPrefixOf value.toList then
            some (String.mk (value.toList.drop 7))
          else if containsSeq tokenEqNeedle value.toList then
            findQuotedToken value.toList
          else none)
  else if eqCI name "x-emby-authorization" then
    some (findQuotedToken value.toList)
  else none

/-- Embedding of the token-extraction loop of the authentication middleware:
the headers are scanned in request order and the first header whose name is
one of the four recognised conventions ends the scan. -/
def extract_token : List (String × String) → Option String
  | [] => none
  | (k, v) :: rest =>
      match tokenOfHeader k v with
      | some t => t
      | none => extract_token rest

/-- What the authentication middleware does with one request: drop it on the
floor without any response, hand it to the application, or answer 401. -/
inductive AuthDecision where
  | dropped : AuthDecision
  | passThrough : AuthDecision
  | unauthorized : AuthDecision
  deriving DecidableEq, Repr

/-- Embedding of the request path of AuthenticationMiddleware: the ban check
runs first and returns without sending anything; then the public allow-list;
then token extraction and validation. -/
def auth_middleware_decision (banned : List String) (access_token : String)
    (path : String) (headers : List (String × String))
    (client : Option (String × ℕ)) : AuthDecision :=
  let client_ip := get_client_ip headers client
  if banned.contains client_ip then .dropped
  else
    let is_public := PUBLIC_ENDPOINTS.any (fun e => eqCI path e) ||
      PUBLIC_PREFIXES.any (fun p => startsWithCI path p)
    if is_public then .passThrough
    else
      match extract_token headers with
      | some t => if ! t.isEmpty && t == access_token then .passThrough else .unauthorized
      | none => .unauthorized

/-! ## Catalog pagination -/

/-- The backend pagination contract: 1-indexed pages of per_page elements
over a fixed ordered collection; modelled abstractly over element index. -/
def backendPage (coll : List ℕ) (page per_page : ℕ) : List ℕ :=
  (coll.drop ((page - 1) * per_page)).take per_page

/-- The per-request pagination of the scene, studio, performer, search and
person branches of endpoint_items: page = start_index / limit + 1 with
per_page = limit. -/
def naiveListItems (coll : List ℕ) (start_index limit : ℕ) : List ℕ :=
  backendPage coll (start_index / limit + 1) limit

/-- Source constant of the groups branch: the fixed internal page size. -/
def FIXED_PAGE_SIZE : ℕ := 50

/-- The fetch loop of the groups branch of endpoint_items: fixed-size backend
pages are fetched until enough items are collected or the backend runs dry;
the hard break of the source after the second fetched page is the fuel
argument, two at the top-level call. -/
def fetch_movies_loop (coll : List ℕ) (target : ℕ) :
    ℕ → ℕ → List ℕ → List ℕ
  | 0, _, fetched => fetched
  | pages_left + 1, current, fetched =>
      if fetched.length < target then
        let page_movies := backendPage coll current FIXED_PAGE_SIZE
        if page_movies.isEmpty then fetched
        else
          fetch_movies_loop coll target pages_left (current + 1)
            (fetched ++ page_movies)
      else fetched

/-- The groups branch of endpoint_items: fetch whole fixed-size backend pages
starting at the page holding start_index, then slice the requested window
locally. -/
def endpoint_items_groups (coll : List ℕ) (start_index limit : ℕ) : List ℕ :=
  let stash_page := start_index / FIXED_PAGE_SIZE + 1
  let offset_within_page := start_index % FIXED_PAGE_SIZE
  let fetched := fetch_movies_loop coll (offset_within_page + limit) 2
    stash_page []
  (fetched.drop offset_within_page).take limit

/-- A client sweep over a listing endpoint: one call per limit in the list,
each call at the running offset, the offset advancing by the limit just
used. -/
def sweepCalls (f : ℕ → ℕ → List ℕ) : List ℕ → ℕ → List ℕ
  | [], _ => []
  | l :: ls, off => f off l ++ sweepCalls f ls (off + l)

/-! ## The playback session tracker -/

/-- One entry of the active-streams dictionary. -/
structure StreamEntry where
  last_seen : ℚ
  started : ℚ
  title : String
  performer : String
  user : String
  client_ip : String
  client_type : String
  client_key : String
  file_size : ℕ
  deriving DecidableEq, Repr

/-- The scene metadata the tracker fetches from the backend, passed in as an
oracle input. -/
structure SceneInfo where
  title : String
  performer : String
  duration : ℚ
  file_size : ℕ
  deriving DecidableEq, Repr

/-- The shared mutable state of the playback session tracker. -/
structure TrackerState where
  active : List (String × StreamEntry)
  client_streams : List (String × String)
  recently_stopped : List (String × ℚ)
  positions : PosTable
  play : PlayStats
  total_streams : ℕ

/-- Dictionary assignment on an association list: replace in place when the
key exists, append otherwise, exactly as a Python dict iterates. -/
def alSet {V : Type} (l : List (String × V)) (k : String) (v : V) :
    List (String × V) :=
  match l with
  | [] => [(k, v)]
  | (k2, v2) :: rest =>
      if k2 = k then (k, v) :: rest else (k2, v2) :: alSet rest k v

/-- Dictionary deletion on an association list. -/
def alErase {V : Type} (l : List (String × V)) (k : String) :
    List (String × V) :=
  l.filter (fun p => p.1 ≠ k)

/-- The observable events of one tracker step, mirroring the log lines of the
source. -/
inductive StreamEvent where
  | started : String → StreamEvent
  | resumingPostRestart : String → StreamEvent
  | cancelled : String → StreamEvent
  | resumedAfterPause : String → StreamEvent
  | continued : String → StreamEvent
  | suppressedTrailing : String → StreamEvent
  | expired : String → StreamEvent
  deriving DecidableEq, Repr

/-- Embedding of the source function mark_stream_stopped: drop the active
entry, drop the client-streams entry when it points back at this scene, and
on a stop notification record the scene as recently stopped and prune stale
markers. -/
def mark_stream_stopped (st : TrackerState) (scene_id : String)
    (from_stop_notification : Bool) (now : ℚ) : TrackerState :=
  let st1 :=
    match st.active.lookup scene_id with
    | some e =>
        let cs2 :=
          if ! e.client_key.isEmpty &&
              st.client_streams.lookup e.client_key == some scene_id then
            alErase st.client_streams e.client_key
          else st.client_streams
        { st with active := alErase st.active scene_id, client_streams := cs2 }
    | none => st
  if from_stop_notification then
    let rs2 := (alSet st1.recently_stopped scene_id now).filter
      (fun p => ! decide (now - p.2 > RECENTLY_STOPPED_GRACE * 2))
    { st1 with recently_stopped := rs2 }
  else st1

/-- Embedding of the source function cancel_client_streams: when the client
key is watching a scene other than the new one, drop that active entry and
the client-streams entry, reporting the cancelled scene. -/
def cancel_client_streams (st : TrackerState) (client_key : String)
    (new_scene_id : Option String) : TrackerState × List String :=
  match st.client_streams.lookup client_key with
  | some current_scene =>
      if ! current_scene.isEmpty && some current_scene != new_scene_id then
        let pair :=
          if (st.active.lookup current_scene).isSome then
            (alErase st.active current_scene, [current_scene])
          else (st.active, ([] : List String))
        let cs2 := alErase st.client_streams client_key
        let st2 := { st with active := pair.1, client_streams := cs2 }
        (st2, pair.2)
      else (st, [])
  | none => (st, [])

/-- Embedding of the stream branch of the request-logging middleware: decide
stream counting, expire a stale entry, then branch on absent, resumed or
continued, creating entries, cancelling the client on a fresh start and
recording the play count.  The scene metadata fetched from the backend is the
oracle argument. -/
def handle_stream_request (st : TrackerState)
    (scene_id user client_ip client_type : String) (byte_position : ℕ)
    (info : SceneInfo) (now : ℚ) : TrackerState × List StreamEvent :=
  let client_key := client_ip ++ "|" ++ client_type
  let stream_info0 := st.active.lookup scene_id
  let cached_file_size :=
    match stream_info0 with
    | some e => if e.file_size = 0 then info.file_size else e.file_size
    | none => info.file_size
  let cres := should_count_as_new_stream st.positions scene_id client_ip
    byte_position cached_file_size now
  let should_count := cres.1.1
  let is_trailing_after_restart := cres.1.2
  let new_total := if should_count then st.total_streams + 1 else st.total_streams
  let st0 := { st with positions := cres.2, total_streams := new_total }
  let has_expired :=
    match stream_info0 with
    | some e => decide (now - e.last_seen ≥ STREAM_COUNT_COOLDOWN)
    | none => false
  let st1 := if has_expired then mark_stream_stopped st0 scene_id false now else st0
  let stream_info := if has_expired then none else stream_info0
  let expiredEvents : List StreamEvent :=
    if has_expired then [.expired scene_id] else []
  match stream_info with
  | none =>
      let recently :=
        match st1.recently_stopped.lookup scene_id with
        | some t => t != 0 && decide (now - t < RECENTLY_STOPPED_GRACE)
        | none => false
      if recently then
        (st1, expiredEvents ++ [.suppressedTrailing scene_id])
      else if is_trailing_after_restart then
        let entry : StreamEntry :=
          ⟨now, now, info.title, info.performer, user, client_ip, client_type,
           client_key, cached_file_size⟩
        let st2 := { st1 with
          active := alSet st1.active scene_id entry,
          client_streams := alSet st1.client_streams client_key scene_id }
        (st2, expiredEvents ++ [.resumingPostRestart scene_id])
      else
        let cc := cancel_client_streams st1 client_key (some scene_id)
        let st3 := { cc.1 with recently_stopped := alErase cc.1.recently_stopped scene_id }
        let entry : StreamEntry :=
          ⟨now, now, info.title, info.performer, user, client_ip, client_type,
           client_key, info.file_size⟩
        let st4 := { st3 with
          active := alSet st3.active scene_id entry,
          client_streams := alSet st3.client_streams client_key scene_id }
        let play2 := record_play_count st4.play scene_id info.title
          info.performer client_ip info.duration now
        let st5 := { st4 with play := play2 }
        (st5, expiredEvents ++ cc.2.map .cancelled ++ [.started scene_id])
  | some e =>
      let bumped := { st1 with
        active := alSet st1.active scene_id { e with last_seen := now } }
      if now - e.last_seen > STREAM_RESUME_THRESHOLD then
        (bumped, expiredEvents ++ [.resumedAfterPause scene_id])
      else
        (bumped, expiredEvents ++ [.continued scene_id])

/-! ## Theorems -/

/-- The empty position table, the state right after a process restart. -/
def emptyPositions : PosTable := fun _ => none

/-- Claim-side predicate for C1: the byte offset indicates the start of the
file, meaning at most five percent of a known file size, or offset zero when
the file size is unknown. -/
def c1_first_at_start (byte_position file_size : ℕ) : Prop :=
  (0 < file_size ∧ 20 * byte_position ≤ file_size) ∨
  (file_size = 0 ∧ byte_position = 0)

instance : ∀ p fs, Decidable (c1_first_at_start p fs) := by
  intro p fs; unfold c1_first_at_start; infer_instance

/-- Claim-side definition for C1, following the words of the claim: on the
first observation the request counts, and is not trailing, exactly when the
offset is at the start of the file, and otherwise does not count and is
trailing; on a later observation it counts exactly when thirty minutes have
elapsed, or the offset is within the first five percent of the file and five
minutes have elapsed. -/
def c1_expected_decision (prev : Option PosInfo) (byte_position file_size : ℕ)
    (now : ℚ) : Bool × Bool :=
  match prev with
  | none =>
      if c1_first_at_start byte_position file_size then (true, false)
      else (false, true)
  | some last =>
      let elapsed := now - last.last_time
      let eff := if file_size = 0 then last.file_size else file_size
      if elapsed ≥ 30 * 60 ∨
          (0 < eff ∧ 20 * byte_position ≤ eff ∧ elapsed ≥ 5 * 60) then
        (true, false)
      else (false, false)

/-- A byte ratio is at most the five-percent threshold exactly when twenty
times the offset is at most the size. -/
theorem ratio_le_iff (pos size : ℕ) (h : 0 < size) :
    ((pos : ℚ) / (size : ℚ) ≤ STREAM_START_THRESHOLD) ↔ 20 * pos ≤ size := by
  have hq : (0:ℚ) < (size:ℚ) := by exact_mod_cast h
  rw [STREAM_START_THRESHOLD, div_le_iff hq]
  constructor
  · intro hh
    have h20 : (20:ℚ) * pos ≤ size := by linarith
    exact_mod_cast h20
  · intro hh
    have h20 : (20:ℚ) * pos ≤ size := by exact_mod_cast hh
    linarith

/-- A byte ratio exceeds the five-percent threshold exactly when the size is
less than twenty times the offset. -/
theorem ratio_gt_iff (pos size : ℕ) (h : 0 < size) :
    ((pos : ℚ) / (size : ℚ) > STREAM_START_THRESHOLD) ↔ size < 20 * pos := by
  rw [gt_iff_lt, ← not_le]
  rw [← Nat.not_le]
  exact not_congr (ratio_le_iff pos size h)

/-- The decision pair of should_count_as_new_stream matches the claim-side
decision for every table and every input. -/
theorem should_count_matches_claim :
    ∀ (tbl : PosTable) (scene_id client_ip : String)
        (byte_position file_size : ℕ) (now : ℚ),
      (should_count_as_new_stream tbl scene_id client_ip byte_position
          file_size now).1
        = c1_expected_decision (tbl (scene_id, client_ip)) byte_position
            file_size now := by
  intro tbl scene_id client_ip byte_position file_size now
  unfold should_count_as_new_stream c1_expected_decision
  cases h : tbl (scene_id, client_ip) with
  | none =>
      simp only [h]
      by_cases h1 : 0 < file_size
      · by_cases h2 : (byte_position:ℚ)/(file_size:ℚ) > STREAM_START_THRESHOLD
        · have hlt : file_size < 20 * byte_position := (ratio_gt_iff _ _ h1).mp h2
          rw [if_pos h1, if_pos h2, if_neg (by unfold c1_first_at_start; omega)]
        · have hle : 20 * byte_position ≤ file_size :=
            (ratio_le_iff byte_position file_size h1).mp (not_lt.mp h2)
          rw [if_pos h1, if_neg h2, if_pos (by unfold c1_first_at_start; omega)]
      · by_cases h3 : 0 < byte_position
        · rw [if_neg h1, if_pos h3, if_neg (by unfold c1_first_at_start; omega)]
        · rw [if_neg h1, if_neg h3, if_pos (by unfold c1_first_at_start; omega)]
  | some last =>
      simp only [h]
      have h1800 : STREAM_COUNT_COOLDOWN = 30 * 60 := by
        unfold STREAM_COUNT_COOLDOWN; norm_num
      have h300 : STREAM_START_GAP = 5 * 60 := by
        unfold STREAM_START_GAP; norm_num
      by_cases hc : now - last.last_time ≥ STREAM_COUNT_COOLDOWN
      · rw [if_pos hc, if_pos (Or.inl (h1800 ▸ hc))]
      · rw [if_neg hc]
        by_cases hs : (0 < (if file_size = 0 then last.file_size else file_size)) ∧
            (byte_position:ℚ)/((if file_size = 0 then last.file_size else file_size : ℕ):ℚ)
              ≤ STREAM_START_THRESHOLD ∧
            now - last.last_time ≥ STREAM_START_GAP
        · have h20 : 20 * byte_position ≤ (if file_size = 0 then last.file_size else file_size) :=
            (ratio_le_iff _ _ hs.1).mp hs.2.1
          rw [if_pos hs, if_pos (Or.inr ⟨hs.1, h20, h300 ▸ hs.2.2⟩)]
        · have hnot : ¬(now - last.last_time ≥ 30 * 60 ∨
              (0 < (if file_size = 0 then last.file_size else file_size) ∧
               20 * byte_position ≤ (if file_size = 0 then last.file_size else file_size) ∧
               now - last.last_time ≥ 5 * 60)) := by
            rintro (hl | ⟨he, h20, hg⟩)
            · exact hc (h1800 ▸ hl)
            · exact hs ⟨he, (ratio_le_iff _ _ he).mpr h20, h300 ▸ hg⟩
          rw [if_neg hs, if_neg hnot]

/-- C1.  For every key, should_count_as_new_stream decides exactly as the
claim states: on the first observation it returns counting and not trailing
exactly when the offset is at the start of the file (at most five percent of
a known size, or offset zero with unknown size), and returns no-count plus
trailing otherwise; on later observations it counts exactly when thirty
minutes elapsed, or the offset is within the first five percent of the file
and five minutes elapsed, and is never flagged trailing.  The four concrete
scenarios of the claim follow: first request at offset 0 of a million-byte
file counts; first request at offset 500000 does not and is trailing; a
second request 31 minutes later at offset 0 counts; a second request 2
minutes later at offset 900000 does not count. -/
theorem c1_new_stream_classification :
    (∀ (tbl : PosTable) (scene_id client_ip : String)
        (byte_position file_size : ℕ) (now : ℚ),
      (should_count_as_new_stream tbl scene_id client_ip byte_position
          file_size now).1
        = c1_expected_decision (tbl (scene_id, client_ip)) byte_position
            file_size now)
    ∧ (should_count_as_new_stream emptyPositions "scene-1" "1.2.3.4"
        0 1000000 0).1 = (true, false)
    ∧ (should_count_as_new_stream emptyPositions "scene-1" "1.2.3.4"
        500000 1000000 0).1 = (false, true)
    ∧ (should_count_as_new_stream
        (should_count_as_new_stream emptyPositions "scene-1" "1.2.3.4"
          0 1000000 0).2 "scene-1" "1.2.3.4" 0 1000000 1860).1 = (true, false)
    ∧ (should_count_as_new_stream
        (should_count_as_new_stream emptyPositions "scene-1" "1.2.3.4"
          0 1000000 0).2 "scene-1" "1.2.3.4" 900000 1000000 120).1
        = (false, false) := by
  refine ⟨should_count_matches_claim, ?_, ?_, ?_, ?_⟩ <;>
    norm_num [should_count_as_new_stream, emptyPositions, posSet,
      STREAM_START_THRESHOLD, STREAM_COUNT_COOLDOWN, STREAM_START_GAP]

/-- C8 counterexample.  The claim says every observation overwrites the
stored entry with the observed byte position, timestamp and observed file
size; but an observation with file size 0 against a stored entry with file
size 100 leaves 100 in the table, not the observed 0: the source keeps the
previously stored size whenever the observed size is falsy. -/
theorem c8_counterexample :
    ((should_count_as_new_stream
        (posSet emptyPositions ("scene-1", "1.2.3.4") ⟨0, 0, 100⟩)
        "scene-1" "1.2.3.4" 5 0 1).2 ("scene-1", "1.2.3.4"))
      = some ⟨5, 1, 100⟩ ∧
    (⟨5, 1, 100⟩ : PosInfo) ≠ ⟨5, 1, 0⟩ := by
  constructor
  · norm_num [should_count_as_new_stream, posSet, emptyPositions,
      STREAM_START_THRESHOLD, STREAM_COUNT_COOLDOWN, STREAM_START_GAP]
  · simp

/-- C8 as amended.  Every observation overwrites the entry for its key with
the observed byte position and timestamp; the file-size field takes the
observed size on a first observation, and on later observations takes the
observed size when it is nonzero and otherwise keeps the previously stored
size.  Entries under other keys are untouched, so entries are never removed
except by process restart. -/
theorem c8_position_table_update :
    ∀ (tbl : PosTable) (scene_id client_ip : String)
      (byte_position file_size : ℕ) (now : ℚ) (k : PosKey),
      (should_count_as_new_stream tbl scene_id client_ip byte_position
          file_size now).2 k
        = if k = (scene_id, client_ip) then
            some ⟨byte_position, now,
              match tbl (scene_id, client_ip) with
              | none => file_size
              | some last => if file_size = 0 then last.file_size else file_size⟩
          else tbl k := by
  intro tbl scene_id client_ip byte_position file_size now k
  unfold should_count_as_new_stream
  cases h : tbl (scene_id, client_ip) <;>
    simp only [h] <;> split_ifs <;> simp [posSet] <;> tauto

/-- The recorded play count of a scene, zero when the scene has no entry. -/
def countOf (st : PlayStats) (scene : String) : ℕ :=
  match st.play_counts scene with
  | none => 0
  | some info => info.count

/-- Claim-side condition for C4: a play is counted exactly when no previous
play was counted for the key, or the elapsed time since the last counted play
is at least the cooldown stored with that play. -/
def c4_counts (st : PlayStats) (scene_id client_ip : String) (now : ℚ) : Bool :=
  match st.play_cooldowns (scene_id, client_ip) with
  | none => true
  | some lp => decide (now - lp.timestamp ≥ lp.cooldown_seconds)

/-- C4.  record_play_count increments the play count of the scene exactly
when the claim-side cooldown condition holds, and then refreshes the cooldown
window to now with duration plus 1800 seconds (the source clamps a negative
duration to zero first), the stored title and the performer summary; when the
key is still inside the stored cooldown everything is left unchanged. -/
theorem c4_play_count_cooldown :
    ∀ (st : PlayStats) (scene_id title performer client_ip : String)
      (duration now : ℚ) (s2 : String) (k2 : PosKey),
      (record_play_count st scene_id title performer client_ip duration
          now).play_counts s2 =
        (if c4_counts st scene_id client_ip now ∧ s2 = scene_id then
          some ⟨countOf st scene_id + 1, title, performer, now⟩
        else st.play_counts s2)
      ∧ (record_play_count st scene_id title performer client_ip duration
          now).play_cooldowns k2 =
        (if c4_counts st scene_id client_ip now ∧ k2 = (scene_id, client_ip) then
          some ⟨now, max 0 duration + 1800⟩
        else st.play_cooldowns k2) := by
  intro st scene_id title performer client_ip duration now s2 k2
  unfold record_play_count c4_counts countOf PLAY_COOLDOWN_BUFFER
  cases h : st.play_cooldowns (scene_id, client_ip) with
  | none =>
      simp only [h]
      constructor
      · by_cases h2 : s2 = scene_id <;>
          cases h3 : st.play_counts scene_id <;> simp_all
      · by_cases h2 : k2 = (scene_id, client_ip) <;> simp_all
  | some lp =>
      simp only [h]
      by_cases hcd : now - lp.timestamp ≥ lp.cooldown_seconds
      · have : ¬ (now - lp.timestamp < lp.cooldown_seconds) := not_lt.mpr hcd
        constructor
        · by_cases h2 : s2 = scene_id <;>
            cases h3 : st.play_counts scene_id <;> simp_all
        · by_cases h2 : k2 = (scene_id, client_ip) <;> simp_all
      · have hlt : now - lp.timestamp < lp.cooldown_seconds := not_le.mp hcd
        have hd : decide (now - lp.timestamp < lp.cooldown_seconds) = true :=
          decide_eq_true hlt
        constructor
        · simp only [hd, Bool.not_true, Bool.false_eq_true, if_false]
          rw [if_neg (fun hx => (not_le.mpr hlt) (of_decide_eq_true hx.1))]
        · simp only [hd, Bool.not_true, Bool.false_eq_true, if_false]
          rw [if_neg (fun hx => (not_le.mpr hlt) (of_decide_eq_true hx.1))]

/-- C5.  record_auth_failure keeps only failures younger than the rolling
window; a failure arriving less than one second after the last kept failure
for that IP is not recorded (the list stays the pruned list and no ban
happens); otherwise the failure is appended, and the moment the count reaches
BAN_THRESHOLD the IP joins the banned set and its failure list is cleared.
Failure lists of other IPs are untouched. -/
theorem c5_auth_failure_accounting :
    ∀ (st : BanState) (client_ip path : String) (now : ℚ) (q : String),
      (((((st.failures client_ip).getD []).filter
          (fun e => now - e.1 < (BAN_WINDOW_MINUTES : ℚ) * 60)).all
          (fun e => decide (now - e.1 < (BAN_WINDOW_MINUTES : ℚ) * 60))) = true)
      ∧ ((record_auth_failure st client_ip path now).failures q =
          (if q = client_ip then
            (let pruned := ((st.failures client_ip).getD []).filter
              (fun e => now - e.1 < (BAN_WINDOW_MINUTES : ℚ) * 60)
             let rate_limited := match pruned.getLast? with
               | some e => decide (now - e.1 < 1)
               | none => false
             if rate_limited then some pruned
             else if BAN_THRESHOLD ≤ pruned.length + 1 then none
             else some (pruned ++ [(now, path)]))
          else st.failures q))
      ∧ ((record_auth_failure st client_ip path now).banned =
          (let pruned := ((st.failures client_ip).getD []).filter
            (fun e => now - e.1 < (BAN_WINDOW_MINUTES : ℚ) * 60)
           let rate_limited := match pruned.getLast? with
             | some e => decide (now - e.1 < 1)
             | none => false
           if rate_limited = false ∧ BAN_THRESHOLD ≤ pruned.length + 1 then
             List.insert client_ip st.banned
           else st.banned)) := by
  intro st client_ip path now q
  refine ⟨?_, ?_, ?_⟩
  · simp [List.all_eq_true, List.mem_filter]
  · unfold record_auth_failure
    cases hrl : (((st.failures client_ip).getD []).filter
        (fun e => now - e.1 < (BAN_WINDOW_MINUTES : ℚ) * 60)).getLast? with
    | none =>
        simp only [hrl]
        split_ifs <;> simp_all
    | some e =>
        simp only [hrl]
        split_ifs <;> simp_all
  · unfold record_auth_failure
    cases hrl : (((st.failures client_ip).getD []).filter
        (fun e => now - e.1 < (BAN_WINDOW_MINUTES : ℚ) * 60)).getLast? with
    | none =>
        simp only [hrl]
        split_ifs <;> simp_all
    | some e =>
        simp only [hrl]
        split_ifs <;> simp_all


/-- C6.  The filter translator maps the representative criterion shapes as
the claim states: the hierarchical tags criterion flattens to the id list
value with the modifier kept and the excluded list renamed to excludes (and
default depth 0); the existence check on details becomes an empty-string
value with the IS_NULL modifier; the BETWEEN range on duration keeps both
integer bounds; boolean combinators recurse, and a combinator whose
recursive translation is empty is dropped from the output. -/
theorem c6_filter_translation_shapes :
    transform_saved_filter_to_graphql
      (.obj [("tags", .obj [("modifier", .s "INCLUDES"),
        ("value", .obj [("items", .arr [.obj [("id", .s "5")],
          .obj [("id", .s "9")]]), ("excluded", .arr [])])])])
      = [("tags", .obj [("value", .arr [.s "5", .s "9"]),
          ("modifier", .s "INCLUDES"), ("depth", .i 0),
          ("excludes", .arr [])])]
    ∧ transform_saved_filter_to_graphql
        (.obj [("details", .obj [("modifier", .s "IS_NULL")])])
        = [("details", .obj [("value", .s ""), ("modifier", .s "IS_NULL")])]
    ∧ transform_saved_filter_to_graphql
        (.obj [("duration", .obj [("modifier", .s "BETWEEN"), ("value", .i 600),
          ("value2", .i 1800)])])
        = [("duration", .obj [("value", .i 600), ("value2", .i 1800),
            ("modifier", .s "BETWEEN")])]
    ∧ transform_saved_filter_to_graphql
        (.obj [("OR", .arr [.obj [("details", .obj [("modifier", .s "IS_NULL")])],
                            .obj []])])
        = [("OR", .arr [.obj [("details", .obj [("value", .s ""),
            ("modifier", .s "IS_NULL")])]])]
    ∧ transform_saved_filter_to_graphql
        (.obj [("AND", .arr [.obj [], .obj []])]) = [] := by
  have hdet : transform_saved_filter_to_graphql
      (.obj [("details", .obj [("modifier", .s "IS_NULL")])])
      = [("details", .obj [("value", .s ""), ("modifier", .s "IS_NULL")])] := by
    simp [transform_saved_filter_to_graphql, transformFields, transformEntry,
      transformCriterion, transformCriterionLeaf, jGetOpt, jGet, isJNull,
      List.lookup, jTruthy]
    all_goals rfl
  have hemp : transform_saved_filter_to_graphql
      (.obj ([] : List (String × JVal))) = [] := by
    simp [transform_saved_filter_to_graphql, transformFields]
  refine ⟨?_, hdet, ?_, ?_, ?_⟩
  · simp [transform_saved_filter_to_graphql, transformFields, transformEntry,
      transformCriterion, transformCriterionLeaf, jGetOpt, jGet, isJNull,
      List.lookup, jTruthy, BOOLEAN_FIELDS, HIERARCHICAL_FIELDS,
      INT_CRITERION_FIELDS, DATE_FIELDS, MULTI_CRITERION_FIELDS,
      hasItemsObj, unwrapSingleValue, pyBoolString, isJBool, isJArr, isJObj, jIdOf]
    all_goals rfl
  · simp [transform_saved_filter_to_graphql, transformFields, transformEntry,
      transformCriterion, transformCriterionLeaf, jGetOpt, jGet, isJNull,
      List.lookup, jTruthy, INT_CRITERION_FIELDS, DATE_FIELDS, pyCoerceInt]
    all_goals rfl
  · simp [transform_saved_filter_to_graphql, transformFields, transformEntry,
      transformGroupList, isJNull, hdet, hemp]
  · simp [transform_saved_filter_to_graphql, transformFields, transformEntry,
      transformGroupList, isJNull, hemp]

mutual

/-- Claim-side definition for C7: every leaf value of the tree is empty or
falsy, where a boolean or a number never counts as empty and the pagination
and sort-control keys are excluded from the check. -/
def c7_all_leaves_falsy : JVal → Bool
  | .null => true
  | .b bv => !bv
  | .i n => n == 0
  | .s sv => sv.isEmpty
  | .arr l => c7_allElemsFalsy l
  | .obj fs => c7_allFieldsFalsy fs
termination_by v => 2 * sizeOf v
decreasing_by all_goals (simp_wf <;> omega)

/-- Field case of c7_all_leaves_falsy. -/
def c7_allFieldsFalsy : List (String × JVal) → Bool
  | [] => true
  | (k, v) :: rest =>
      (k == "page" || k == "per_page" || k == "sort" || k == "direction" ||
       c7_all_leaves_falsy v) && c7_allFieldsFalsy rest
termination_by l => 2 * sizeOf l
decreasing_by all_goals (simp_wf <;> omega)

/-- List case of c7_all_leaves_falsy. -/
def c7_allElemsFalsy : List JVal → Bool
  | [] => true
  | v :: rest => c7_all_leaves_falsy v && c7_allElemsFalsy rest
termination_by l => 2 * sizeOf l
decreasing_by all_goals (simp_wf <;> omega)

end

mutual

/-- A tree with no meaningful filter value has only empty or falsy leaves. -/
theorem not_meaningful_all_falsy :
    ∀ v, has_meaningful_filter v = false → c7_all_leaves_falsy v = true
  | .null, _ => by simp [c7_all_leaves_falsy]
  | .b bv, h => by simp [has_meaningful_filter] at h
  | .i n, h => by simp [has_meaningful_filter] at h
  | .s sv, h => by
      simp [has_meaningful_filter] at h
      simp [c7_all_leaves_falsy, h]
  | .arr [], _ => by simp [c7_all_leaves_falsy, c7_allElemsFalsy]
  | .arr (v :: rest), h => by
      simp only [has_meaningful_filter, List.isEmpty_cons, Bool.not_false,
        Bool.true_and] at h
      simp only [c7_all_leaves_falsy]
      exact not_any_all_falsy_elem (v :: rest) h
  | .obj fs, h => by
      simp only [has_meaningful_filter] at h
      simp only [c7_all_leaves_falsy]
      exact not_any_all_falsy_field fs h
termination_by v => 2 * sizeOf v + 1
decreasing_by all_goals (simp_wf <;> omega)

/-- Field-list form of not_meaningful_all_falsy. -/
theorem not_any_all_falsy_field :
    ∀ l, anyMeaningfulField l = false → c7_allFieldsFalsy l = true
  | [], _ => by simp [c7_allFieldsFalsy]
  | (k, v) :: rest, h => by
      simp only [anyMeaningfulField, Bool.or_eq_false_iff] at h
      simp only [c7_allFieldsFalsy, Bool.and_eq_true, Bool.or_eq_true]
      refine ⟨?_, not_any_all_falsy_field rest h.2⟩
      by_cases hk : (k == "page" || k == "per_page" || k == "sort" ||
          k == "direction") = true
      · simp only [Bool.or_eq_true] at hk
        tauto
      · right
        have hv : has_meaningful_filter v = false := by
          rw [if_neg hk] at h
          exact h.1
        exact not_meaningful_all_falsy v hv
termination_by l => 2 * sizeOf l + 1
decreasing_by all_goals (simp_wf <;> omega)

/-- Element-list form of not_meaningful_all_falsy. -/
theorem not_any_all_falsy_elem :
    ∀ l, anyMeaningfulElem l = false → c7_allElemsFalsy l = true
  | [], _ => by simp [c7_allElemsFalsy]
  | v :: rest, h => by
      simp only [anyMeaningfulElem, Bool.or_eq_false_iff] at h
      simp only [c7_allElemsFalsy, Bool.and_eq_true]
      exact ⟨not_meaningful_all_falsy v h.1, not_any_all_falsy_elem rest h.2⟩
termination_by l => 2 * sizeOf l + 1
decreasing_by all_goals (simp_wf <;> omega)

end

/-- Claim-side definition for C7: the free-text query of the saved filter is
empty or absent. -/
def c7_query_empty (find_filter : JVal) : Bool :=
  match jField find_filter "q" with
  | some q => ! jTruthy q
  | none => true

/-- C7 counterexample.  The claim says a filter is sort-only iff its tree is
empty or absent and its free-text query is empty; but a filter whose tree
holds only the empty-string value under title, with the non-empty free-text
query x, is classified sort-only although its tree is non-empty (truthy) and
its query is non-empty (truthy): on a non-empty tree the source never
consults the query. -/
theorem c7_counterexample :
    is_sort_only_filter (.obj [("title", .s "")]) (.obj [("q", .s "x")]) = true
    ∧ jTruthy (.obj [("title", .s "")]) = true
    ∧ jTruthy (.s "x") = true := by
  refine ⟨?_, rfl, rfl⟩
  simp [is_sort_only_filter, has_meaningful_filter, anyMeaningfulField, jTruthy]
  all_goals rfl

/-- C7 as amended.  A filter with an empty or absent object_filter tree is
sort-only exactly when its free-text query is empty or absent; a filter with
a non-empty tree is sort-only exactly when the tree holds no meaningful
filter value, regardless of the query; a non-empty tree classified sort-only
has only empty or falsy leaves (booleans and numbers always meaningful,
pagination keys excluded); and the two concrete examples of the claim hold:
an empty object_filter with no query is sort-only, and the organized EQUALS
true filter is not. -/
theorem c7_sort_only_characterization :
    (∀ of ff : JVal, is_sort_only_filter of ff =
      if jTruthy of then ! has_meaningful_filter of else c7_query_empty ff)
    ∧ (∀ of ff : JVal,
        (jTruthy of && is_sort_only_filter of ff &&
         ! c7_all_leaves_falsy of) = false)
    ∧ is_sort_only_filter (.obj []) .null = true
    ∧ is_sort_only_filter
        (.obj [("organized", .obj [("modifier", .s "EQUALS"),
          ("value", .b true)])]) .null = false := by
  refine ⟨?_, ?_, ?_, ?_⟩
  · intro of ff
    unfold is_sort_only_filter c7_query_empty
    by_cases h : jTruthy of
    · simp [h]
    · simp only [h, Bool.not_false, if_true, if_false, Bool.false_eq_true]
      by_cases h2 : jTruthy ff
      · simp [h2]
      · simp only [h2, Bool.false_eq_true, if_false]
        cases ff with
        | obj fs =>
            simp [jTruthy] at h2
            simp [h2, jField]
        | _ => simp [jField]
  · intro of ff
    by_cases h1 : jTruthy of
    · by_cases h2 : has_meaningful_filter of = true
      · simp [is_sort_only_filter, h1, h2]
      · have h3 := not_meaningful_all_falsy of (by simpa using h2)
        simp [h3]
    · simp [h1]
  · simp [is_sort_only_filter, jTruthy, c7_query_empty, jField]
  · simp [is_sort_only_filter, jTruthy, has_meaningful_filter,
      anyMeaningfulField]
    all_goals rfl

/-- The value of the first header carrying a given (case-folded) name. -/
def findHeaderValue (headers : List (String × String)) (name : String) :
    Option String :=
  match headers.find? (fun kv => eqCI kv.1 name) with
  | some kv => some kv.2
  | none => none

/-- Claim-side definition for C9: token extraction in the fixed priority
order the claim states, independent of the order of the headers in the
request: the dedicated token header first, then the older-client token
header, then the Authorization bearer value, then a quoted Token field of
the structured headers. -/
def c9_priority_extract (headers : List (String × String)) : Option String :=
  match findHeaderValue headers "x-emby-token" with
  | some v => some v
  | none =>
    match findHeaderValue headers "x-mediabrowser-token" with
    | some v => some v
    | none =>
      match findHeaderValue headers "authorization" with
      | some v =>
          if "Bearer ".toList.isPrefixOf v.toList then
            some (String.mk (v.toList.drop 7))
          else
            match findQuotedToken v.toList with
            | some t => some t
            | none => findQuotedAuth headers
      | none => findQuotedAuth headers
where findQuotedAuth (headers : List (String × String)) : Option String :=
  match findHeaderValue headers "x-emby-authorization" with
  | some v => findQuotedToken v.toList
  | none => none

/-- C9 counterexample.  The claim says the conventions are tried in a fixed
priority order regardless of header order, so the dedicated token header
should always beat the Authorization bearer value; but the source scans the
headers in request order and stops at the first recognised name: with
Authorization first it extracts the bearer token, with the dedicated header
first it extracts the dedicated one. -/
theorem c9_counterexample :
    extract_token [("Authorization", "Bearer aaa"), ("X-Emby-Token", "bbb")]
      = some "aaa"
    ∧ c9_priority_extract
        [("Authorization", "Bearer aaa"), ("X-Emby-Token", "bbb")]
      = some "bbb"
    ∧ extract_token [("X-Emby-Token", "bbb"), ("Authorization", "Bearer aaa")]
      = some "bbb" := by
  refine ⟨rfl, rfl, rfl⟩

/-- C9 as amended.  The token is taken from the first header in request
order whose name matches one of the four recognised conventions, that header
being read according to its convention; the scan stops at that header even
when it yields no token, so later token-bearing headers are ignored. -/
theorem c9_extraction_order :
    ∀ (pre : List (String × String)) (k v : String)
      (rest : List (String × String)) (t : Option String),
      (∀ p ∈ pre, tokenOfHeader p.1 p.2 = none) →
      tokenOfHeader k v = some t →
      extract_token (pre ++ (k, v) :: rest) = t := by
  intro pre k v rest t hpre hk
  induction pre with
  | nil => simp [extract_token, hk]
  | cons p ps ih =>
      have hp := hpre p (List.mem_cons_self p ps)
      simp only [List.cons_append, extract_token, hp]
      exact ih (fun q hq => hpre q (List.mem_cons_of_mem p hq))

/-- Witness for c9_extraction_order at a concrete header list. -/
theorem c9_extraction_order_witness :
    extract_token ([("accept", "x")] ++
      ("X-Emby-Token", "abc") :: [("Authorization", "Bearer zzz")])
      = some "abc" :=
  c9_extraction_order [("accept", "x")] "X-Emby-Token" "abc"
    [("Authorization", "Bearer zzz")] (some "abc") (by decide) (by rfl)

/-- C10.  When the client IP of a request is in the banned set, the
authentication middleware returns the silent drop, sending no response
message at all, for every path, every header list and every token: the ban
check precedes the public allow-list and the token check, so even public
discovery routes get no response. -/
theorem c10_banned_silent_drop :
    ∀ (banned : List String) (access_token path : String)
      (headers : List (String × String)) (client : Option (String × ℕ)),
      banned.contains (get_client_ip headers client) = true →
      auth_middleware_decision banned access_token path headers client
        = .dropped := by
  intro banned access_token path headers client h
  unfold auth_middleware_decision
  rw [if_pos h]

/-- Witness for c10_banned_silent_drop: a banned peer requesting the public
system-info route is dropped. -/
theorem c10_banned_silent_drop_witness :
    List.contains ["9.9.9.9"]
      (get_client_ip [] (some ("9.9.9.9", 80))) = true
    ∧ auth_middleware_decision ["9.9.9.9"] "tok" "/System/Info/Public" []
        (some ("9.9.9.9", 80)) = .dropped :=
  ⟨by decide, c10_banned_silent_drop ["9.9.9.9"] "tok" "/System/Info/Public"
    [] (some ("9.9.9.9", 80)) (by decide)⟩

/-- Slicing a window out of a truncated list equals slicing the original,
as long as the window fits inside the truncation. -/
theorem take_drop_window (xs : List ℕ) (w n m : ℕ) (h : w + n ≤ m) :
    ((xs.take m).drop w).take n = (xs.drop w).take n := by
  rw [List.drop_take, List.take_take]
  have : min n (m - w) = n := by omega
  rw [this]

/-- The groups listing returns exactly the requested window of the
collection whenever the limit is at most the fixed internal page size: the
two fetched fixed-size pages always cover the window. -/
theorem groups_slice (coll : List ℕ) (off limit : ℕ) (h : limit ≤ 50) :
    endpoint_items_groups coll off limit = (coll.drop off).take limit := by
  unfold endpoint_items_groups
  set sp := off / FIXED_PAGE_SIZE + 1 with hsp
  set w := off % FIXED_PAGE_SIZE with hw
  have hw50 : w < 50 := Nat.mod_lt _ (by norm_num [FIXED_PAGE_SIZE])
  have hbase : (sp - 1) * FIXED_PAGE_SIZE = 50 * (off / 50) := by
    simp [hsp, FIXED_PAGE_SIZE, Nat.mul_comm]
  have hoff : 50 * (off / 50) + w = off := by
    rw [hw]
    simpa [FIXED_PAGE_SIZE] using Nat.div_add_mod off 50
  set base := 50 * (off / 50) with hbs
  by_cases h0 : w + limit = 0
  · have hl0 : limit = 0 := by omega
    simp [hl0, fetch_movies_loop, h0]
  · have hp1 : backendPage coll sp FIXED_PAGE_SIZE = (coll.drop base).take 50 := by
      unfold backendPage
      rw [hbase, FIXED_PAGE_SIZE]
    by_cases hempty : (coll.drop base).take 50 = []
    · have hcoll : coll.length ≤ base := by
        have hlen := congrArg List.length hempty
        simp [List.length_take, List.length_drop] at hlen
        omega
      have hd1 : coll.drop off = [] := by
        apply List.drop_eq_nil_of_le
        omega
      simp only [fetch_movies_loop]
      rw [if_pos (by simpa using Nat.pos_of_ne_zero h0), hp1]
      rw [if_pos (by simpa using hempty)]
      simp [hd1]
    · -- first page non-empty
      have hlen1 : ((coll.drop base).take 50).length = min 50 (coll.length - base) := by
        simp [List.length_take, List.length_drop]
      by_cases hbig : w + limit ≤ ((coll.drop base).take 50).length
      · -- one page suffices
        simp only [fetch_movies_loop]
        rw [if_pos (by simpa using Nat.pos_of_ne_zero h0), hp1]
        rw [if_neg (by simpa using hempty)]
        simp only [List.nil_append, fetch_movies_loop]
        rw [if_neg (by omega)]
        have h50 : w + limit ≤ 50 := by
          have := hlen1
          omega
        rw [take_drop_window (coll.drop base) w limit 50 h50,
          List.drop_drop, hoff]
      · -- need the second page
        have hp2 : backendPage coll (sp + 1) FIXED_PAGE_SIZE
            = ((coll.drop base).drop 50).take 50 := by
          unfold backendPage
          rw [List.drop_drop]
          have hx : (sp + 1 - 1) * FIXED_PAGE_SIZE = base + 50 := by
            simp [hsp, FIXED_PAGE_SIZE, hbs]
            ring
          rw [hx, FIXED_PAGE_SIZE]
        simp only [fetch_movies_loop]
        rw [if_pos (by simpa using Nat.pos_of_ne_zero h0), hp1]
        rw [if_neg (by simpa using hempty)]
        simp only [List.nil_append, fetch_movies_loop]
        rw [if_pos (by omega), hp2]
        by_cases hp2e : ((coll.drop base).drop 50).take 50 = []
        · -- collection exhausted inside the first page
          rw [if_pos (by simpa using hp2e)]
          have hshort : coll.length - base ≤ 50 := by
            have hl2 := congrArg List.length hp2e
            simp [List.length_take, List.length_drop] at hl2
            omega
          have hall : (coll.drop base).take 50 = coll.drop base :=
            List.take_of_length_le (by rw [List.length_drop]; omega)
          rw [hall, List.drop_drop, hoff]
        · rw [if_neg (by simpa using hp2e)]
          rw [← List.take_add]
          have h100 : w + limit ≤ 100 := by omega
          rw [take_drop_window (coll.drop base) w limit 100 h100,
            List.drop_drop, hoff]

/-- A sweep of groups-listing calls with chained offsets returns exactly the
first sum-of-limits elements of the collection. -/
theorem sweep_exact (coll : List ℕ) :
    ∀ (ls : List ℕ) (off : ℕ),
      (∀ l ∈ ls, l ≤ 50) →
      sweepCalls (endpoint_items_groups coll) ls off
        = (coll.drop off).take ls.sum := by
  intro ls
  induction ls with
  | nil =>
      intro off h
      simp [sweepCalls]
  | cons l rest ih =>
      intro off h
      simp only [sweepCalls, List.sum_cons]
      rw [groups_slice coll off l (h l (List.mem_cons_self l rest)),
        ih (off + l) (fun q hq => h q (List.mem_cons_of_mem l hq)),
        List.take_add]
      congr 1
      rw [List.drop_drop]

/-- The per-request pagination of the scene-style branches is exact when the
offset is a multiple of the limit. -/
theorem naive_slice (coll : List ℕ) (j limit : ℕ) (h : 1 ≤ limit) :
    naiveListItems coll (j * limit) limit
      = (coll.drop (j * limit)).take limit := by
  unfold naiveListItems backendPage
  have hj : j * limit / limit + 1 - 1 = j := by
    rw [Nat.mul_div_cancel _ h]
    omega
  rw [hj]

/-- A sweep of scene-style listing calls with one fixed limit returns
exactly the swept prefix of the collection. -/
theorem naive_sweep (coll : List ℕ) (limit : ℕ) (h : 1 ≤ limit) :
    ∀ (k j : ℕ),
      sweepCalls (naiveListItems coll) (List.replicate k limit) (j * limit)
        = (coll.drop (j * limit)).take (k * limit) := by
  intro k
  induction k with
  | zero =>
      intro j
      simp [sweepCalls]
  | succ k ih =>
      intro j
      simp only [List.replicate_succ, sweepCalls]
      rw [naive_slice coll j limit h]
      rw [show j * limit + limit = (j + 1) * limit by ring, ih (j + 1)]
      rw [show (k + 1) * limit = limit + k * limit by ring, List.take_add]
      congr 1
      rw [List.drop_drop]
      congr 1
      ring

/-- C2 counterexample.  The claim promises no duplicates and no gaps for
arbitrary offset/limit values with the limit varying between calls; but the
scene-style branches cited by the claim compute the backend page as
offset/limit, so the sweep of a ten-element collection with limits 3, 5, 5
at offsets 0, 3, 8 returns elements 0, 1 and 2 twice: the second call at
offset 3 with limit 5 maps to page 1 and returns the first five elements
again. -/
theorem c2_counterexample :
    sweepCalls (naiveListItems (List.range 10)) [3, 5, 5] 0
      = [0, 1, 2, 0, 1, 2, 3, 4, 5, 6, 7, 8, 9]
    ∧ ¬ (sweepCalls (naiveListItems (List.range 10)) [3, 5, 5] 0).Nodup
    ∧ naiveListItems (List.range 10) 3 5 = [0, 1, 2, 3, 4] := by
  refine ⟨by decide, by decide, by decide⟩

/-- C2 as amended.  For the groups listing, which pages the backend by the
fixed internal size 50 and slices locally, any full sweep with chained
offsets and arbitrary per-call limits of at most 50 (varying between calls,
divisors of the page size or not) returns every element of the collection
exactly once; for the scene-style listings, which page the backend by the
requested limit, the same holds only when one fixed limit is used for the
whole sweep. -/
theorem c2_pagination :
    ∀ (coll ls : List ℕ) (k limit : ℕ),
      ((∀ l ∈ ls, l ≤ 50) → coll.length ≤ ls.sum →
        sweepCalls (endpoint_items_groups coll) ls 0 = coll)
      ∧ (1 ≤ limit → coll.length ≤ k * limit →
        sweepCalls (naiveListItems coll) (List.replicate k limit) 0 = coll) := by
  intro coll ls k limit
  constructor
  · intro h hlen
    rw [sweep_exact coll ls 0 h]
    simpa using List.take_of_length_le hlen
  · intro h hlen
    have hs := naive_sweep coll limit h k 0
    simp only [Nat.zero_mul] at hs
    rw [hs]
    simpa using List.take_of_length_le hlen

/-- Witness for c2_pagination: a 120-element sweep with varying non-divisor
limits through the groups listing, and a 20-element sweep with fixed limit 7
through the scene-style listing. -/
theorem c2_pagination_witness :
    sweepCalls (endpoint_items_groups (List.range 120)) [30, 45, 50] 0
      = List.range 120
    ∧ sweepCalls (naiveListItems (List.range 20)) (List.replicate 3 7) 0
      = List.range 20 :=
  ⟨(c2_pagination (List.range 120) [30, 45, 50] 3 7).1 (by decide) (by decide),
   (c2_pagination (List.range 20) [30, 45, 50] 3 7).2 (by decide) (by decide)⟩

/-! ## C3: single stream per client -/

theorem lookup_mem {V : Type} (l : List (String × V)) (k : String) (v : V)
    (h : l.lookup k = some v) : (k, v) ∈ l := by
  induction l with
  | nil => simp [List.lookup] at h
  | cons p rest ih =>
      rw [List.lookup_cons] at h
      split at h
      · next heq =>
          have hk : k = p.1 := by simpa using heq
          cases h
          simp [hk]
      · exact List.mem_cons_of_mem _ (ih h)

theorem lookup_alSet {V : Type} (l : List (String × V)) (k q : String) (v : V) :
    (alSet l k v).lookup q = if q = k then some v else l.lookup q := by
  induction l with
  | nil =>
      simp only [alSet, List.lookup_cons, List.lookup_nil]
      by_cases h : q = k
      · simp [h]
      · simp [h, beq_eq_false_iff_ne.mpr h]
  | cons p rest ih =>
      rw [show p = (p.1, p.2) from rfl]
      simp only [alSet]
      by_cases h1 : p.1 = k
      · rw [if_pos h1]
        simp only [List.lookup_cons]
        by_cases h2 : q = k
        · simp [h2]
        · simp [beq_eq_false_iff_ne.mpr h2, h2,
            beq_eq_false_iff_ne.mpr (h1 ▸ h2)]
      · rw [if_neg h1]
        simp only [List.lookup_cons]
        by_cases h2 : q = p.1
        · have h3 : ¬ q = k := fun hh => h1 (h2.symm.trans hh)
          simp [h2, h3, h1]
        · simp [beq_eq_false_iff_ne.mpr h2, ih]

theorem mem_alErase {V : Type} (l : List (String × V)) (k : String)
    (p : String × V) : p ∈ alErase l k ↔ p ∈ l ∧ p.1 ≠ k := by
  simp [alErase, List.mem_filter]

theorem lookup_alErase {V : Type} (l : List (String × V)) (k q : String)
    (h : q ≠ k) : (alErase l k).lookup q = l.lookup q := by
  induction l with
  | nil => simp [alErase]
  | cons p rest ih =>
      obtain ⟨pk, pv⟩ := p
      simp only [alErase, List.filter_cons]
      by_cases h1 : pk = k
      · rw [if_neg (by simp [h1])]
        simp only [List.lookup_cons]
        have h3 : ¬ q = pk := by rw [h1]; exact h
        simp only [alErase, decide_not] at ih
        simp [beq_eq_false_iff_ne.mpr h3, ih]
      · rw [if_pos (by simpa using h1)]
        simp only [List.lookup_cons]
        by_cases h2 : q = pk
        · simp [h2]
        · simp only [alErase, decide_not] at ih
          simp [beq_eq_false_iff_ne.mpr h2, ih]

theorem lookup_alErase_self {V : Type} (l : List (String × V)) (k : String) :
    (alErase l k).lookup k = none := by
  induction l with
  | nil => simp [alErase]
  | cons p rest ih =>
      obtain ⟨pk, pv⟩ := p
      simp only [alErase, List.filter_cons]
      by_cases h1 : pk = k
      · rw [if_neg (by simp [h1])]
        simpa [alErase, decide_not] using ih
      · rw [if_pos (by simpa using h1)]
        simp only [List.lookup_cons]
        have h3 : ¬ k = pk := fun hh => h1 hh.symm
        simp only [alErase, decide_not] at ih
        simp [beq_eq_false_iff_ne.mpr h3, ih]

theorem mem_keys_alSet {V : Type} (l : List (String × V)) (k q : String)
    (v : V) (h : q ∈ (alSet l k v).map Prod.fst) :
    q ∈ l.map Prod.fst ∨ q = k := by
  induction l with
  | nil => simpa [alSet] using h
  | cons p rest ih =>
      simp only [alSet] at h
      by_cases h1 : p.1 = k
      · rw [if_pos h1] at h
        simp at h
        rcases h with h | h
        · right; exact h
        · left; simp [h]
      · rw [if_neg h1] at h
        simp at h
        rcases h with h | h
        · left; simp [h]
        · rcases ih (by simpa using h) with hh | hh
          · left; simp; right; simpa using hh
          · right; exact hh

theorem nodup_alSet {V : Type} (l : List (String × V)) (k : String) (v : V)
    (h : (l.map Prod.fst).Nodup) : ((alSet l k v).map Prod.fst).Nodup := by
  induction l with
  | nil => simp [alSet]
  | cons p rest ih =>
      simp only [alSet]
      simp only [List.map_cons, List.nodup_cons] at h
      by_cases h1 : p.1 = k
      · simp only [if_pos h1, List.map_cons, List.nodup_cons]
        exact ⟨h1 ▸ h.1, h.2⟩
      · simp only [if_neg h1, List.map_cons, List.nodup_cons]
        refine ⟨?_, ih h.2⟩
        intro hcon
        rcases mem_keys_alSet rest k p.1 v hcon with hh | hh
        · exact h.1 hh
        · exact h1 hh

theorem mem_alSet_nodup {V : Type} (l : List (String × V)) (k : String)
    (v : V) (p : String × V) (hnd : (l.map Prod.fst).Nodup)
    (h : p ∈ alSet l k v) : p = (k, v) ∨ (p ∈ l ∧ p.1 ≠ k) := by
  induction l with
  | nil => simpa [alSet] using h
  | cons q rest ih =>
      simp only [alSet] at h
      simp only [List.map_cons, List.nodup_cons] at hnd
      by_cases h1 : q.1 = k
      · rw [if_pos h1] at h
        rcases List.mem_cons.mp h with hh | hh
        · left; exact hh
        · right
          refine ⟨List.mem_cons_of_mem _ hh, ?_⟩
          intro hcon
          exact hnd.1 (h1 ▸ hcon ▸ List.mem_map_of_mem Prod.fst hh)
      · rw [if_neg h1] at h
        rcases List.mem_cons.mp h with hh | hh
        · right
          exact ⟨by simp [hh], by rw [hh]; exact h1⟩
        · rcases ih hnd.2 hh with hh2 | hh2
          · left; exact hh2
          · right; exact ⟨List.mem_cons_of_mem _ hh2.1, hh2.2⟩

theorem nodup_alErase {V : Type} (l : List (String × V)) (k : String)
    (h : (l.map Prod.fst).Nodup) : ((alErase l k).map Prod.fst).Nodup := by
  unfold alErase
  exact h.sublist (List.Sublist.map Prod.fst (List.filter_sublist l))

def pairWF (active : List (String × StreamEntry))
    (cs : List (String × String)) : Prop :=
  (active.map Prod.fst).Nodup ∧
  (∀ p ∈ active, p.1 ≠ "") ∧
  (∀ p ∈ active, cs.lookup p.2.client_key = some p.1)

def trackerWF (st : TrackerState) : Prop :=
  pairWF st.active st.client_streams

instance : ∀ a c, Decidable (pairWF a c) := by
  intro a c; unfold pairWF; infer_instance

instance : ∀ st, Decidable (trackerWF st) := by
  intro st; unfold trackerWF; infer_instance

theorem mem_nodup_lookup {V : Type} (l : List (String × V))
    (hnd : (l.map Prod.fst).Nodup) (p : String × V) (hp : p ∈ l) :
    l.lookup p.1 = some p.2 := by
  induction l with
  | nil => simp at hp
  | cons q rest ih =>
      obtain ⟨qk, qv⟩ := q
      simp only [List.map_cons, List.nodup_cons] at hnd
      rcases List.mem_cons.mp hp with hh | hh
      · rw [hh]
        simp [List.lookup_cons]
      · simp only [List.lookup_cons]
        have hne : ¬ p.1 = qk := by
          intro hcon
          exact hnd.1 (hcon ▸ List.mem_map_of_mem Prod.fst hh)
        simp only [beq_eq_false_iff_ne.mpr hne]
        exact ih hnd.2 hh

theorem lookup_none_not_key {V : Type} (l : List (String × V)) (k : String)
    (h : l.lookup k = none) : ∀ p ∈ l, p.1 ≠ k := by
  induction l with
  | nil => simp
  | cons q rest ih =>
      obtain ⟨qk, qv⟩ := q
      simp only [List.lookup_cons] at h
      intro p hp
      rcases List.mem_cons.mp hp with hh | hh
      · intro hcon
        have hqk : qk = k := by rw [hh] at hcon; exact hcon
        rw [hqk] at h
        simp at h
      · split at h
        · exact absurd h (by simp)
        · exact ih h p hh

theorem wf_unique_per_key (active : List (String × StreamEntry))
    (cs : List (String × String)) (h : pairWF active cs) :
    ∀ p ∈ active, ∀ q ∈ active, p.2.client_key = q.2.client_key → p = q := by
  intro p hp q hq hkey
  have h1 := h.2.2 p hp
  have h2 := h.2.2 q hq
  rw [hkey, h2] at h1
  have hfst : q.1 = p.1 := by simpa using h1
  have hl1 := mem_nodup_lookup active h.1 p hp
  have hl2 := mem_nodup_lookup active h.1 q hq
  rw [hfst, hl1] at hl2
  have hsnd : p.2 = q.2 := by simpa using hl2
  exact Prod.ext hfst.symm hsnd

theorem cancel_preserves_wf (st : TrackerState) (key : String)
    (ns : Option String) (h : trackerWF st) :
    trackerWF (cancel_client_streams st key ns).1 := by
  unfold cancel_client_streams
  cases hc : st.client_streams.lookup key with
  | none => exact h
  | some cur =>
      by_cases hcond : (! cur.isEmpty && some cur != ns) = true
      · simp only [hcond, if_true]
        by_cases hmem : (st.active.lookup cur).isSome
        · simp only [hmem, if_true]
          refine ⟨nodup_alErase _ _ h.1, ?_, ?_⟩
          · intro p hp
            exact h.2.1 p ((mem_alErase _ _ _).mp hp).1
          · intro p hp
            obtain ⟨hpm, hpne⟩ := (mem_alErase _ _ _).mp hp
            by_cases hpk : p.2.client_key = key
            · exfalso
              have := h.2.2 p hpm
              rw [hpk, hc] at this
              exact hpne (by simpa using this.symm)
            · rw [lookup_alErase _ _ _ hpk]
              exact h.2.2 p hpm
        · simp only [hmem, if_false]
          refine ⟨h.1, h.2.1, ?_⟩
          intro p hp
          by_cases hpk : p.2.client_key = key
          · exfalso
            have hnone : st.active.lookup cur = none := by
              cases hx : st.active.lookup cur
              · rfl
              · rw [hx] at hmem; simp at hmem
            have := h.2.2 p hp
            rw [hpk, hc] at this
            have hcur : p.1 = cur := by simpa using this.symm
            exact (lookup_none_not_key st.active cur hnone p hp) hcur
          · rw [lookup_alErase _ _ _ hpk]
            exact h.2.2 p hp
      · simp only [hcond, if_false]
        exact h

theorem cancel_lookup_key (st : TrackerState) (key : String) (scene : String) :
    (cancel_client_streams st key (some scene)).1.client_streams.lookup key
        = none
    ∨ (cancel_client_streams st key (some scene)).1.client_streams.lookup key
        = some ""
    ∨ (cancel_client_streams st key (some scene)).1.client_streams.lookup key
        = some scene := by
  unfold cancel_client_streams
  cases hc : st.client_streams.lookup key with
  | none => left; exact hc
  | some cur =>
      by_cases hcond : (! cur.isEmpty && some cur != some scene) = true
      · simp only [hcond, if_true]
        left
        exact lookup_alErase_self _ _
      · have hcs : cur = "" ∨ cur = scene := by
          by_cases he : cur.isEmpty
          · left
            cases hcur : cur with
            | mk data =>
                cases data with
                | nil => rfl
                | cons c cs =>
                    rw [hcur] at he
                    simp [String.isEmpty, String.Pos.ext_iff] at he
                    have := Char.utf8Size_pos c
                    omega
          · right
            by_cases hbne : (some cur != some scene) = true
            · exact absurd (by simp [he, hbne]) hcond
            · have h2 : (some cur != some scene) = false := by
                cases hx : (some cur != some scene)
                · rfl
                · exact absurd hx hbne
              simpa using h2
        dsimp only
        rw [if_neg hcond]
        rcases hcs with hcs | hcs
        · right; left
          rw [hc, hcs]
        · right; right
          rw [hc, hcs]

theorem mark_preserves_wf (st : TrackerState) (scene : String)
    (fsn : Bool) (now : ℚ) (h : trackerWF st) :
    trackerWF (mark_stream_stopped st scene fsn now) := by
  unfold mark_stream_stopped
  cases ha : st.active.lookup scene with
  | none =>
      split_ifs <;> exact h
  | some e =>
      have hcore : pairWF (alErase st.active scene)
          (if ! e.client_key.isEmpty &&
              st.client_streams.lookup e.client_key == some scene then
            alErase st.client_streams e.client_key
          else st.client_streams) := by
        by_cases hcond : (! e.client_key.isEmpty &&
            st.client_streams.lookup e.client_key == some scene) = true
        · rw [if_pos hcond]
          refine ⟨nodup_alErase _ _ h.1, ?_, ?_⟩
          · intro p hp
            exact h.2.1 p ((mem_alErase _ _ _).mp hp).1
          · intro p hp
            obtain ⟨hpm, hpne⟩ := (mem_alErase _ _ _).mp hp
            by_cases hpk : p.2.client_key = e.client_key
            · exfalso
              have hl := h.2.2 p hpm
              rw [hpk] at hl
              have hsc : st.client_streams.lookup e.client_key = some scene := by
                have := (Bool.and_eq_true _ _).mp hcond
                simpa using this.2
              rw [hsc] at hl
              exact hpne (by simpa using hl.symm)
            · rw [lookup_alErase _ _ _ hpk]
              exact h.2.2 p hpm
        · rw [if_neg hcond]
          refine ⟨nodup_alErase _ _ h.1, ?_, ?_⟩
          · intro p hp
            exact h.2.1 p ((mem_alErase _ _ _).mp hp).1
          · intro p hp
            exact h.2.2 p ((mem_alErase _ _ _).mp hp).1
      split_ifs <;> exact hcore

theorem start_branch_wf (st : TrackerState) (key scene_id : String)
    (e : StreamEntry) (hkey : e.client_key = key) (hs : scene_id ≠ "")
    (h : trackerWF st) :
    pairWF
      (alSet (cancel_client_streams st key (some scene_id)).1.active
        scene_id e)
      (alSet (cancel_client_streams st key (some scene_id)).1.client_streams
        key scene_id) := by
  have hwfc := cancel_preserves_wf st key (some scene_id) h
  have hlk := cancel_lookup_key st key scene_id
  refine ⟨nodup_alSet _ _ _ hwfc.1, ?_, ?_⟩
  · intro p hp
    rcases mem_alSet_nodup _ _ _ p hwfc.1 hp with hh | hh
    · rw [hh]; exact hs
    · exact hwfc.2.1 p hh.1
  · intro p hp
    rcases mem_alSet_nodup _ _ _ p hwfc.1 hp with hh | hh
    · rw [hh]
      show (alSet _ key scene_id).lookup e.client_key = some scene_id
      rw [hkey, lookup_alSet]
      simp
    · by_cases hpk : p.2.client_key = key
      · exfalso
        have hl := hwfc.2.2 p hh.1
        rw [hpk] at hl
        rcases hlk with hx | hx | hx
        · rw [hx] at hl
          exact absurd hl (by simp)
        · rw [hx] at hl
          exact hwfc.2.1 p hh.1 (by simpa using hl.symm)
        · rw [hx] at hl
          exact hh.2 (by simpa using hl.symm)
      · rw [lookup_alSet, if_neg hpk]
        exact hwfc.2.2 p hh.1

theorem bump_wf (st : TrackerState) (scene_id : String) (e e2 : StreamEntry)
    (hsi : st.active.lookup scene_id = some e)
    (hck : e2.client_key = e.client_key) (h : trackerWF st) :
    pairWF (alSet st.active scene_id e2) st.client_streams := by
  refine ⟨nodup_alSet _ _ _ h.1, ?_, ?_⟩
  · intro p hp
    rcases mem_alSet_nodup _ _ _ p h.1 hp with hh | hh
    · rw [hh]
      exact h.2.1 (scene_id, e) (lookup_mem _ _ _ hsi)
    · exact h.2.1 p hh.1
  · intro p hp
    rcases mem_alSet_nodup _ _ _ p h.1 hp with hh | hh
    · rw [hh]
      show st.client_streams.lookup e2.client_key = some scene_id
      rw [hck]
      exact h.2.2 (scene_id, e) (lookup_mem _ _ _ hsi)
    · exact h.2.2 p hh.1

theorem handle_preserves_wf :
    ∀ (st : TrackerState) (scene_id user client_ip client_type : String)
      (byte_position : ℕ) (info : SceneInfo) (now : ℚ),
      trackerWF st → scene_id ≠ "" →
      StreamEvent.resumingPostRestart scene_id ∉
        (handle_stream_request st scene_id user client_ip client_type
          byte_position info now).2 →
      trackerWF (handle_stream_request st scene_id user client_ip client_type
        byte_position info now).1 := by
  intro st scene_id user client_ip client_type byte_position info now h hs hev
  unfold handle_stream_request at hev ⊢
  dsimp only at hev ⊢
  cases hsi : st.active.lookup scene_id with
  | none =>
      rw [hsi] at hev
      dsimp only at hev ⊢
      simp only [ite_self, Bool.false_eq_true, if_false] at hev ⊢
      by_cases h1 : (match List.lookup scene_id st.recently_stopped with
          | some t => t != 0 && decide (now - t < RECENTLY_STOPPED_GRACE)
          | none => false) = true
      · rw [if_pos h1]
        exact h
      · rw [if_neg h1] at hev ⊢
        by_cases h2 : (should_count_as_new_stream st.positions scene_id
            client_ip byte_position info.file_size now).1.2 = true
        · rw [if_pos h2] at hev
          simp at hev
        · rw [if_neg h2]
          exact start_branch_wf _ _ _ _ rfl hs h
  | some e =>
      rw [hsi] at hev
      dsimp only at hev ⊢
      by_cases hexp : (decide (now - e.last_seen ≥ STREAM_COUNT_COOLDOWN)) = true
      · simp only [hexp, if_true] at hev ⊢
        set cfs := (if e.file_size = 0 then info.file_size else e.file_size)
          with hcfs
        set cres := should_count_as_new_stream st.positions scene_id client_ip
          byte_position cfs now with hcres
        set ST0 : TrackerState :=
          { active := st.active, client_streams := st.client_streams,
            recently_stopped := st.recently_stopped, positions := cres.2,
            play := st.play,
            total_streams := if cres.1.1 = true then st.total_streams + 1
              else st.total_streams } with hST0
        set ST1 := mark_stream_stopped ST0 scene_id false now with hST1
        have hwf1 : trackerWF ST1 := mark_preserves_wf ST0 scene_id false now h
        by_cases h1 : (match List.lookup scene_id ST1.recently_stopped with
            | some t => t != 0 && decide (now - t < RECENTLY_STOPPED_GRACE)
            | none => false) = true
        · rw [if_pos h1]
          exact hwf1
        · rw [if_neg h1] at hev ⊢
          by_cases h2 : cres.1.2 = true
          · rw [if_pos h2] at hev
            simp at hev
          · rw [if_neg h2]
            exact start_branch_wf ST1 _ _ _ rfl hs hwf1
      · simp only [hexp, Bool.false_eq_true, if_false] at hev ⊢
        simp only [apply_ite Prod.fst, ite_self]
        exact bump_wf st scene_id e _ hsi rfl h

/-- Pointwise evaluation of a position-table update. -/
theorem posSet_apply (tbl : PosTable) (k q : PosKey) (v : PosInfo) :
    posSet tbl k v q = if q = k then some v else tbl q := rfl

/-- The empty position table holds no entry. -/
theorem emptyPositions_apply (q : PosKey) : emptyPositions q = none := rfl

/-- The tracker state at process start: no active streams, no history. -/
def emptyTracker : TrackerState :=
  { active := [], client_streams := [], recently_stopped := [],
    positions := emptyPositions,
    play := { play_cooldowns := fun _ => none, play_counts := fun _ => none },
    total_streams := 0 }

/-- C3 counterexample.  The claim says a client key never has two
simultaneous active entries.  But the trailing-after-restart branch creates
an active entry and a client-streams entry without first cancelling the
client's current stream: a client that started scene-A and then sends a
mid-file request for scene-B (first observation at offset 500000 of a
1000000-byte file, so classified trailing) ends up with two active entries
under the same client key, and the step fires no cancellation, only the
resuming-post-restart event. -/
theorem c3_counterexample :
    ((handle_stream_request
        (handle_stream_request emptyTracker "scene-A" "billy" "1.2.3.4"
          "Infuse" 0 ⟨"Video A", "", 100, 1000000⟩ 0).1
        "scene-B" "billy" "1.2.3.4" "Infuse" 500000
        ⟨"Video B", "", 100, 1000000⟩ 10).1.active.filter
      (fun p => p.2.client_key == "1.2.3.4|Infuse")).length = 2
    ∧ (handle_stream_request
        (handle_stream_request emptyTracker "scene-A" "billy" "1.2.3.4"
          "Infuse" 0 ⟨"Video A", "", 100, 1000000⟩ 0).1
        "scene-B" "billy" "1.2.3.4" "Infuse" 500000
        ⟨"Video B", "", 100, 1000000⟩ 10).2
      = [StreamEvent.resumingPostRestart "scene-B"] := by
  have h1 : (handle_stream_request emptyTracker "scene-A" "billy" "1.2.3.4"
      "Infuse" 0 ⟨"Video A", "", 100, 1000000⟩ 0).1 =
      { active := [("scene-A",
          ⟨0, 0, "Video A", "", "billy", "1.2.3.4", "Infuse",
           "1.2.3.4|Infuse", 1000000⟩)],
        client_streams := [("1.2.3.4|Infuse", "scene-A")],
        recently_stopped := [],
        positions := posSet emptyPositions ("scene-A", "1.2.3.4") ⟨0, 0, 1000000⟩,
        play := record_play_count
          { play_cooldowns := fun _ => none, play_counts := fun _ => none }
          "scene-A" "Video A" "" "1.2.3.4" 100 0,
        total_streams := 1 } := by
    simp [handle_stream_request, should_count_as_new_stream, emptyTracker,
      emptyPositions_apply, mark_stream_stopped, cancel_client_streams,
      alSet, alErase, List.lookup, List.filter]
    norm_num [STREAM_START_THRESHOLD]
  rw [h1]
  simp [handle_stream_request, should_count_as_new_stream, posSet_apply,
    emptyPositions_apply, Prod.mk.injEq, mark_stream_stopped,
    cancel_client_streams, alSet, alErase, List.lookup, List.filter]
  norm_num [STREAM_START_THRESHOLD, STREAM_COUNT_COOLDOWN,
    STREAM_RESUME_THRESHOLD, RECENTLY_STOPPED_GRACE]

/-- C3 as amended.  After every stream request that does not take the
trailing-after-restart branch (no resuming-post-restart event fired) and
after every stop notification, the tracker keeps the invariant: active
scene ids are pairwise distinct, nonempty, and each active entry's client
key points back at its scene, so each client key has at most one active
entry (any two active entries sharing a client key are equal).  Moreover,
in the concrete scenario where client key 1.2.3.4|Infuse is active on
scene-A and requests scene-B from the start of the file, the entry for
scene-A is removed and a cancellation fires while the entry for scene-B is
created, leaving scene-B as the only active entry. -/
theorem c3_single_stream_per_client :
    (∀ (st : TrackerState) (scene_id user client_ip client_type : String)
        (byte_position : ℕ) (info : SceneInfo) (now : ℚ),
        trackerWF st → scene_id ≠ "" →
        StreamEvent.resumingPostRestart scene_id ∉
          (handle_stream_request st scene_id user client_ip client_type
            byte_position info now).2 →
        trackerWF (handle_stream_request st scene_id user client_ip
          client_type byte_position info now).1)
    ∧ (∀ (st : TrackerState) (scene_id : String) (fsn : Bool) (now : ℚ),
        trackerWF st → trackerWF (mark_stream_stopped st scene_id fsn now))
    ∧ (∀ (st : TrackerState), trackerWF st →
        ∀ p ∈ st.active, ∀ q ∈ st.active,
          p.2.client_key = q.2.client_key → p = q)
    ∧ ((handle_stream_request
          { active := [("scene-A", ⟨0, 0, "Video A", "", "billy", "1.2.3.4",
              "Infuse", "1.2.3.4|Infuse", 1000000⟩)],
            client_streams := [("1.2.3.4|Infuse", "scene-A")],
            recently_stopped := [], positions := emptyPositions,
            play := { play_cooldowns := fun _ => none,
                      play_counts := fun _ => none },
            total_streams := 1 }
          "scene-B" "billy" "1.2.3.4" "Infuse" 0
          ⟨"Video B", "", 100, 1000000⟩ 10).1.active
        = [("scene-B", ⟨10, 10, "Video B", "", "billy", "1.2.3.4", "Infuse",
            "1.2.3.4|Infuse", 1000000⟩)]
       ∧ (handle_stream_request
          { active := [("scene-A", ⟨0, 0, "Video A", "", "billy", "1.2.3.4",
              "Infuse", "1.2.3.4|Infuse", 1000000⟩)],
            client_streams := [("1.2.3.4|Infuse", "scene-A")],
            recently_stopped := [], positions := emptyPositions,
            play := { play_cooldowns := fun _ => none,
                      play_counts := fun _ => none },
            total_streams := 1 }
          "scene-B" "billy" "1.2.3.4" "Infuse" 0
          ⟨"Video B", "", 100, 1000000⟩ 10).2
        = [StreamEvent.cancelled "scene-A", StreamEvent.started "scene-B"]) := by
  refine ⟨handle_preserves_wf,
    fun st sc f n h => mark_preserves_wf st sc f n h,
    fun st h => wf_unique_per_key st.active st.client_streams h, ?_, ?_⟩
  all_goals
    simp [handle_stream_request, should_count_as_new_stream, posSet_apply,
      emptyPositions_apply, Prod.mk.injEq, mark_stream_stopped,
      cancel_client_streams, alSet, alErase, List.lookup, List.filter,
      (show ("scene-A" : String).isEmpty = false from rfl)]
  all_goals
    norm_num [STREAM_START_THRESHOLD, STREAM_COUNT_COOLDOWN,
      STREAM_RESUME_THRESHOLD, RECENTLY_STOPPED_GRACE]

/-- Witness for c3_single_stream_per_client at concrete inputs. -/
theorem c3_ssc_witness :
    trackerWF (handle_stream_request emptyTracker "scene-A" "billy"
      "1.2.3.4" "Infuse" 0 ⟨"Video A", "", 100, 0⟩ 0).1
    ∧ trackerWF (mark_stream_stopped emptyTracker "scene-A" true 5) :=
  ⟨c3_single_stream_per_client.1 emptyTracker "scene-A" "billy" "1.2.3.4"
      "Infuse" 0 ⟨"Video A", "", 100, 0⟩ 0 (by decide) (by decide) (by decide),
    c3_single_stream_per_client.2.1 emptyTracker "scene-A" true 5 (by decide)⟩


end StashProxy
